import Mathlib

/-!
# Verification of the file-share server (src/server/main.go)

A shallow embedding of the encrypted file-share service.  Bytes are `Nat`
values below 256, byte strings are `List Nat`.  Randomness (`rand.Reader`) is
externalized: random keys, nonces and ids are explicit arguments of the
functions that draw them, together with the length facts `io.ReadFull` /
`rand.Read` guarantee.  The database handle is externalized into an explicit
association-list state, and handlers additionally return the trace of store
and response effects they perform, so that frame and ordering properties can
be stated.
-/

set_option autoImplicit false

namespace FileShare

abbrev Byte := Nat

/-- `keySize` (src/server/main.go:24). -/
def keySize : Nat := 32

/-- `nonceSize` (src/server/main.go:25). -/
def nonceSize : Nat := 12

/-- `aes.NewCipher` from the Go standard library: succeeds exactly on the AES
key sizes 16, 24 and 32 bytes, otherwise returns a `KeySizeError`. -/
def aesNewCipher (key : List Byte) : Except String Unit :=
  if key.length = 16 ∨ key.length = 24 ∨ key.length = 32 then .ok ()
  else .error ("crypto/aes: invalid key size " ++ toString key.length)

/-- Modelled from the Go standard library contract of AES-GCM
(`cipher.NewGCM(aes.NewCipher(key))`): a key- and nonce-determined mixing
value standing for the AES key schedule, used to derive the CTR keystream.
The AES block cipher itself is outside this repository; a concrete executable
mixing function stands in for it. -/
def keyNonceMix (key nonce : List Byte) : Nat :=
  (key ++ nonce).foldl (fun a b => (a * 131 + b + 1) % 4294967296) 17

/-- One byte of the CTR keystream for position `i`. -/
def keystreamByte (key nonce : List Byte) (i : Nat) : Byte :=
  (keyNonceMix key nonce * (2 * i + 1) + i * i) % 256

/-- CTR-mode encryption/decryption starting at stream position `i`:
XOR each byte with the keystream.  It is its own inverse. -/
def ctrCryptFrom (key nonce : List Byte) (i : Nat) : List Byte → List Byte
  | [] => []
  | b :: bs => (b ^^^ keystreamByte key nonce i) :: ctrCryptFrom key nonce (i + 1) bs

/-- CTR-mode encryption/decryption of a whole byte string. -/
def ctrCrypt (key nonce data : List Byte) : List Byte :=
  ctrCryptFrom key nonce 0 data

/-- Modelled from the Go standard library contract of `cipher.AEAD` for
AES-GCM: the authentication tag binds the key, the nonce, the additional data
and the ciphertext.  Real AES-GCM truncates this binding to a 16-byte tag that
is only computationally sound; the model idealizes the AEAD into a perfect
MAC (the tag is an injective record of everything that was authenticated),
which is exactly the guarantee the server trusts the AEAD interface for. -/
def gcmTag (key nonce ad ct : List Byte) : List Byte :=
  key ++ nonce ++ ad ++ [ad.length % 256] ++ ct

/-- `cipher.AEAD.Seal(nil, nonce, plaintext, ad)` for AES-GCM: the ciphertext
with the authentication tag appended. -/
def gcmSeal (key nonce pt ad : List Byte) : List Byte :=
  ctrCrypt key nonce pt ++ gcmTag key nonce ad (ctrCrypt key nonce pt)

/-- `cipher.AEAD.Open(nil, nonce, data, ad)` for AES-GCM: split `data` into
ciphertext and tag, verify the tag, and only then decrypt.  Returns `none`
(Go: `ErrOpen`, "message authentication failed") whenever verification fails;
no partial plaintext is ever produced. -/
def gcmOpen (key nonce data ad : List Byte) : Option (List Byte) :=
  if data.length < key.length + nonce.length + ad.length + 1 then none
  else if (data.length - (key.length + nonce.length + ad.length + 1)) % 2 ≠ 0 then none
  else if data.drop ((data.length - (key.length + nonce.length + ad.length + 1)) / 2) =
      gcmTag key nonce ad
        (data.take ((data.length - (key.length + nonce.length + ad.length + 1)) / 2)) then
    some (ctrCrypt key nonce
      (data.take ((data.length - (key.length + nonce.length + ad.length + 1)) / 2)))
  else none

/-- `encryptFile` (src/server/main.go:221-244).  The 12-byte nonce drawn from
`rand.Reader` is an explicit argument (with its length guaranteed by
`io.ReadFull` stated as a hypothesis where needed); the plaintext read by
`io.ReadAll` is the byte-list argument.  Returns `nonce ‖ Seal(plaintext)`
with nil associated data. -/
def encryptFile (key nonce plaintext : List Byte) : Except String (List Byte) :=
  match aesNewCipher key with
  | .error e => .error e
  | .ok _ => .ok (nonce ++ gcmSeal key nonce plaintext [])

/-- `decryptFile` (src/server/main.go:271-288): length check, split off the
12-byte nonce, authenticated open of the remainder. -/
def decryptFile (encryptedData key : List Byte) : Except String (List Byte) :=
  if encryptedData.length < nonceSize then .error "ciphertext too short"
  else match aesNewCipher key with
  | .error e => .error e
  | .ok _ =>
    match gcmOpen key (encryptedData.take nonceSize) (encryptedData.drop nonceSize) [] with
    | some pt => .ok pt
    | none => .error "cipher: message authentication failed"

theorem length_ctrCryptFrom (key nonce : List Byte) (i : Nat) (bs : List Byte) :
    (ctrCryptFrom key nonce i bs).length = bs.length := by
  induction bs generalizing i with
  | nil => rfl
  | cons b bs ih => simp [ctrCryptFrom, ih]

theorem length_ctrCrypt (key nonce bs : List Byte) :
    (ctrCrypt key nonce bs).length = bs.length :=
  length_ctrCryptFrom key nonce 0 bs

theorem ctrCryptFrom_ctrCryptFrom (key nonce : List Byte) (i : Nat) (bs : List Byte) :
    ctrCryptFrom key nonce i (ctrCryptFrom key nonce i bs) = bs := by
  induction bs generalizing i with
  | nil => rfl
  | cons b bs ih =>
    simp only [ctrCryptFrom, ih]
    rw [Nat.xor_cancel_right]

theorem ctrCrypt_ctrCrypt (key nonce bs : List Byte) :
    ctrCrypt key nonce (ctrCrypt key nonce bs) = bs :=
  ctrCryptFrom_ctrCryptFrom key nonce 0 bs

theorem length_gcmTag (key nonce ad ct : List Byte) :
    (gcmTag key nonce ad ct).length =
      key.length + nonce.length + ad.length + 1 + ct.length := by
  simp [gcmTag]; omega

theorem length_gcmSeal (key nonce pt ad : List Byte) :
    (gcmSeal key nonce pt ad).length =
      2 * pt.length + (key.length + nonce.length + ad.length + 1) := by
  simp [gcmSeal, length_gcmTag, length_ctrCrypt]; omega

theorem gcmOpen_gcmSeal (key nonce pt ad : List Byte) :
    gcmOpen key nonce (gcmSeal key nonce pt ad) ad = some pt := by
  have hlen := length_gcmSeal key nonce pt ad
  have hct := length_ctrCrypt key nonce pt
  unfold gcmOpen
  rw [hlen]
  have h1 : ¬ (2 * pt.length + (key.length + nonce.length + ad.length + 1) <
      key.length + nonce.length + ad.length + 1) := by omega
  have h2 : 2 * pt.length + (key.length + nonce.length + ad.length + 1) -
      (key.length + nonce.length + ad.length + 1) = 2 * pt.length := by omega
  rw [if_neg h1, h2, Nat.mul_mod_right, Nat.mul_div_cancel_left _ (by omega : 0 < 2)]
  have htake : (gcmSeal key nonce pt ad).take pt.length = ctrCrypt key nonce pt := by
    unfold gcmSeal
    rw [← hct, List.take_left]
  have hdrop : (gcmSeal key nonce pt ad).drop pt.length =
      gcmTag key nonce ad (ctrCrypt key nonce pt) := by
    unfold gcmSeal
    rw [← hct, List.drop_left]
  rw [htake, hdrop, if_neg (by simp), if_pos rfl, ctrCrypt_ctrCrypt]

/-- **C1.** For every byte sequence `P`, every valid 32-byte key `K` and any
12-byte nonce drawn for the call, decrypting the output of `encryptFile` with
the same key returns the original plaintext:
`decryptFile(encryptFile(P, K), K) = ok P`. -/
theorem decryptFile_encryptFile_roundtrip (pt key nonce : List Byte)
    (hk : key.length = 32) (hn : nonce.length = 12) :
    Except.bind (encryptFile key nonce pt) (fun blob => decryptFile blob key) =
      .ok pt := by
  have henc : encryptFile key nonce pt = .ok (nonce ++ gcmSeal key nonce pt []) := by
    unfold encryptFile aesNewCipher
    rw [if_pos (by omega)]
  rw [henc]
  show decryptFile (nonce ++ gcmSeal key nonce pt []) key = .ok pt
  unfold decryptFile
  have hlen : (nonce ++ gcmSeal key nonce pt []).length =
      12 + (gcmSeal key nonce pt []).length := by simp [hn]
  rw [if_neg (by simp [nonceSize]; omega)]
  unfold aesNewCipher
  rw [if_pos (by omega)]
  have htake : (nonce ++ gcmSeal key nonce pt []).take nonceSize = nonce := by
    show (nonce ++ gcmSeal key nonce pt []).take 12 = nonce
    rw [← hn, List.take_left]
  have hdrop : (nonce ++ gcmSeal key nonce pt []).drop nonceSize =
      gcmSeal key nonce pt [] := by
    show (nonce ++ gcmSeal key nonce pt []).drop 12 = gcmSeal key nonce pt []
    rw [← hn, List.drop_left]
  rw [htake, hdrop, gcmOpen_gcmSeal]

/-- Witness for C1 at a concrete plaintext, key and nonce. -/
theorem decryptFile_encryptFile_roundtrip_witness :
    (List.range 32).length = 32 ∧ (List.range 12).length = 12 ∧
      Except.bind (encryptFile (List.range 32) (List.range 12) [104, 105, 33])
        (fun blob => decryptFile blob (List.range 32)) = .ok [104, 105, 33] :=
  ⟨by decide, by decide,
    decryptFile_encryptFile_roundtrip [104, 105, 33] (List.range 32) (List.range 12)
      (by decide) (by decide)⟩

/-- **C2.** For every plaintext and every valid 32-byte key, the sealed blob
produced by `encryptFile` is exactly the 12-byte nonce drawn for the call
followed by the AEAD output — the ciphertext with the authentication tag
appended — computed with empty (nil) associated data; the nonce occupies the
first 12 bytes of the stored blob. -/
theorem encryptFile_blob_layout (pt key nonce : List Byte)
    (hk : key.length = 32) (hn : nonce.length = 12) :
    encryptFile key nonce pt =
      .ok (nonce ++ (ctrCrypt key nonce pt ++ gcmTag key nonce [] (ctrCrypt key nonce pt))) ∧
    (∀ blob, encryptFile key nonce pt = .ok blob → blob.take 12 = nonce) := by
  have henc : encryptFile key nonce pt = .ok (nonce ++ gcmSeal key nonce pt []) := by
    unfold encryptFile aesNewCipher
    rw [if_pos (by omega)]
  refine ⟨henc, ?_⟩
  intro blob hb
  rw [henc] at hb
  cases hb
  exact List.take_left' hn

/-- Witness for C2 at a concrete plaintext, key and nonce. -/
theorem encryptFile_blob_layout_witness :
    (List.range 32).length = 32 ∧ (List.range 12).length = 12 ∧
      (encryptFile (List.range 32) (List.range 12) [65, 66] =
        .ok (List.range 12 ++
          (ctrCrypt (List.range 32) (List.range 12) [65, 66] ++
            gcmTag (List.range 32) (List.range 12) []
              (ctrCrypt (List.range 32) (List.range 12) [65, 66]))) ∧
      (∀ blob, encryptFile (List.range 32) (List.range 12) [65, 66] = .ok blob →
        blob.take 12 = List.range 12)) :=
  ⟨by decide, by decide,
    encryptFile_blob_layout [65, 66] (List.range 32) (List.range 12) (by decide) (by decide)⟩

/-- Flip bit `k` of the byte at position `p` of a byte string (no-op when `p`
is out of range, so tamper statements carry the bound `p < length`). -/
def flipBit (bs : List Byte) (p k : Nat) : List Byte :=
  bs.set p (bs.getD p 0 ^^^ 2 ^ k)

theorem length_flipBit (bs : List Byte) (p k : Nat) :
    (flipBit bs p k).length = bs.length := by
  simp [flipBit]

theorem flipBit_ne (bs : List Byte) (p k : Nat) (hp : p < bs.length) :
    flipBit bs p k ≠ bs := by
  intro h
  have h1 : (flipBit bs p k).getD p 0 = bs.getD p 0 ^^^ 2 ^ k := by
    simp [flipBit, List.getD, List.getElem?_set, hp]
  rw [h] at h1
  have h2 : (0 : Nat) = 2 ^ k := by
    calc (0 : Nat) = bs.getD p 0 ^^^ bs.getD p 0 := (Nat.xor_self _).symm
    _ = bs.getD p 0 ^^^ (bs.getD p 0 ^^^ 2 ^ k) := by rw [← h1]
    _ = 2 ^ k := Nat.xor_cancel_left _ _
  have h3 : (2 : Nat) ^ k ≠ 0 := by positivity
  exact h3 h2.symm

theorem flipBit_append_left (a b : List Byte) (p k : Nat) (hp : p < a.length) :
    flipBit (a ++ b) p k = flipBit a p k ++ b := by
  unfold flipBit
  rw [List.getD_append _ _ _ _ hp]
  simp [List.set_append, hp]

theorem flipBit_append_right (a b : List Byte) (p k : Nat) (hp : a.length ≤ p) :
    flipBit (a ++ b) p k = a ++ flipBit b (p - a.length) k := by
  unfold flipBit
  rw [List.getD_append_right _ _ _ _ hp]
  simp only [List.set_append]
  rw [if_neg (by omega)]

theorem gcmTag_inj_ct (key nonce ad ct ct2 : List Byte)
    (h : gcmTag key nonce ad ct = gcmTag key nonce ad ct2) : ct = ct2 := by
  unfold gcmTag at h
  exact List.append_cancel_left h

theorem gcmTag_inj_key (k1 k2 nonce ad ct : List Byte) (hl : k1.length = k2.length)
    (h : gcmTag k1 nonce ad ct = gcmTag k2 nonce ad ct) : k1 = k2 := by
  unfold gcmTag at h
  have h1 := List.append_inj h (by simp [hl])
  have h2 := List.append_inj h1.1 (by simp [hl])
  have h3 := List.append_inj h2.1 (by simp [hl])
  exact (List.append_inj h3.1 (by simp [hl])).1

/-- Evaluating `gcmOpen` on a blob presented as ciphertext ++ tag with the
correct component lengths reduces to the tag check. -/
theorem gcmOpen_split (key nonce ad ct tg : List Byte)
    (htg : tg.length = key.length + nonce.length + ad.length + 1 + ct.length) :
    gcmOpen key nonce (ct ++ tg) ad =
      if tg = gcmTag key nonce ad ct then some (ctrCrypt key nonce ct) else none := by
  unfold gcmOpen
  have hlen : (ct ++ tg).length =
      2 * ct.length + (key.length + nonce.length + ad.length + 1) := by
    simp [htg]; omega
  rw [hlen]
  have h2 : 2 * ct.length + (key.length + nonce.length + ad.length + 1) -
      (key.length + nonce.length + ad.length + 1) = 2 * ct.length := by omega
  rw [if_neg (by omega), h2, Nat.mul_mod_right,
    Nat.mul_div_cancel_left _ (by omega : 0 < 2), if_neg (by simp),
    List.take_left, List.drop_left]

/-- Flipping any bit of the sealed output (ciphertext or tag portion) makes
`gcmOpen` reject. -/
theorem gcmOpen_flipBit (key nonce pt ad : List Byte) (q k : Nat)
    (hq : q < (gcmSeal key nonce pt ad).length) :
    gcmOpen key nonce (flipBit (gcmSeal key nonce pt ad) q k) ad = none := by
  have hct := length_ctrCrypt key nonce pt
  have htg := length_gcmTag key nonce ad (ctrCrypt key nonce pt)
  have hsl := length_gcmSeal key nonce pt ad
  have hs : gcmSeal key nonce pt ad =
      ctrCrypt key nonce pt ++ gcmTag key nonce ad (ctrCrypt key nonce pt) := rfl
  by_cases hsplit : q < pt.length
  · have hf : flipBit (gcmSeal key nonce pt ad) q k =
        flipBit (ctrCrypt key nonce pt) q k ++
          gcmTag key nonce ad (ctrCrypt key nonce pt) := by
      rw [hs, flipBit_append_left _ _ _ _ (by omega)]
    rw [hf, gcmOpen_split _ _ _ _ _
      (by simp only [length_flipBit, length_gcmTag, length_ctrCrypt])]
    rw [if_neg fun hcond =>
      flipBit_ne _ q k (by omega) (gcmTag_inj_ct _ _ _ _ _ hcond).symm]
  · have hf : flipBit (gcmSeal key nonce pt ad) q k =
        ctrCrypt key nonce pt ++
          flipBit (gcmTag key nonce ad (ctrCrypt key nonce pt)) (q - pt.length) k := by
      rw [hs, flipBit_append_right _ _ _ _ (by omega), hct]
    rw [hf, gcmOpen_split _ _ _ _ _
      (by simp only [length_flipBit, length_gcmTag, length_ctrCrypt])]
    rw [if_neg (flipBit_ne _ _ _ (by omega))]

/-- Evaluating `decryptFile` on a nonce-prefixed blob under a valid 32-byte
key reduces to `gcmOpen` on the remainder. -/
theorem decryptFile_append_nonce (key nonce data : List Byte)
    (hk : key.length = 32) (hn : nonce.length = 12) :
    decryptFile (nonce ++ data) key =
      match gcmOpen key nonce data [] with
      | some pt => .ok pt
      | none => .error "cipher: message authentication failed" := by
  unfold decryptFile
  rw [if_neg (by simp only [nonceSize, List.length_append, hn]; omega)]
  unfold aesNewCipher
  rw [if_pos (by omega)]
  rw [show (nonce ++ data).take nonceSize = nonce from List.take_left' hn,
    show (nonce ++ data).drop nonceSize = data from List.drop_left' hn]

/-- **C3.** `decryptFile` fails with an error — never returning plaintext,
partial or altered — in each of these cases: (1) the blob is shorter than 12
bytes; (2) the blob was sealed under `K1` and is opened with a different
32-byte key `K2 ≠ K1`; (3) any single bit of the blob's ciphertext or tag
portion (any position past the 12-byte nonce) is flipped; (4) the supplied
key has a wrong length (not a legal AES key size; such a key is rejected by
`aes.NewCipher` before any decryption). -/
theorem decryptFile_failure_cases :
    (∀ data key : List Byte, data.length < 12 →
      decryptFile data key = .error "ciphertext too short") ∧
    (∀ pt k1 k2 nonce : List Byte, k1.length = 32 → k2.length = 32 →
      nonce.length = 12 → k1 ≠ k2 →
      decryptFile (nonce ++ gcmSeal k1 nonce pt []) k2 =
        .error "cipher: message authentication failed") ∧
    (∀ pt key nonce : List Byte, ∀ p k : Nat, key.length = 32 → nonce.length = 12 →
      12 ≤ p → p < (nonce ++ gcmSeal key nonce pt []).length →
      decryptFile (flipBit (nonce ++ gcmSeal key nonce pt []) p k) key =
        .error "cipher: message authentication failed") ∧
    (∀ data key : List Byte, 12 ≤ data.length →
      ¬(key.length = 16 ∨ key.length = 24 ∨ key.length = 32) →
      decryptFile data key = .error ("crypto/aes: invalid key size " ++ toString key.length)) := by
  refine ⟨?_, ?_, ?_, ?_⟩
  · intro data key h
    unfold decryptFile
    rw [if_pos (by simpa [nonceSize] using h)]
  · intro pt k1 k2 nonce h1 h2 hn hne
    rw [decryptFile_append_nonce k2 nonce _ h2 hn]
    rw [show gcmSeal k1 nonce pt [] =
      ctrCrypt k1 nonce pt ++ gcmTag k1 nonce [] (ctrCrypt k1 nonce pt) from rfl]
    rw [gcmOpen_split k2 nonce [] (ctrCrypt k1 nonce pt) _
      (by rw [length_gcmTag]; simp [length_ctrCrypt]; omega)]
    rw [if_neg fun hcond => hne (gcmTag_inj_key k1 k2 nonce [] _ (by omega) hcond)]
  · intro pt key nonce p k hk hn hp12 hplen
    rw [List.length_append, hn] at hplen
    have hflip : flipBit (nonce ++ gcmSeal key nonce pt []) p k =
        nonce ++ flipBit (gcmSeal key nonce pt []) (p - 12) k := by
      rw [flipBit_append_right _ _ _ _ (by omega), hn]
    rw [hflip, decryptFile_append_nonce key nonce _ hk hn,
      gcmOpen_flipBit key nonce pt [] (p - 12) k (by omega)]
  · intro data key hlen hbad
    unfold decryptFile
    rw [if_neg (by simp only [nonceSize]; omega)]
    unfold aesNewCipher
    rw [if_neg hbad]

/-- Witness for C3: each failure case evaluated at a concrete input. -/
theorem decryptFile_failure_cases_witness :
    decryptFile [7] (List.range 32) = .error "ciphertext too short" ∧
    decryptFile (List.range 12 ++ gcmSeal (List.range 32) (List.range 12) [9] [])
        (List.replicate 32 5) = .error "cipher: message authentication failed" ∧
    decryptFile (flipBit (List.range 12 ++ gcmSeal (List.range 32) (List.range 12) [9] []) 12 0)
        (List.range 32) = .error "cipher: message authentication failed" ∧
    decryptFile (List.range 12) [1, 2, 3] =
      .error ("crypto/aes: invalid key size " ++ toString ([(1 : Nat), 2, 3]).length) :=
  ⟨decryptFile_failure_cases.1 [7] (List.range 32) (by decide),
    decryptFile_failure_cases.2.1 [9] (List.range 32) (List.replicate 32 5)
      (List.range 12) (by decide) (by decide) (by decide) (by decide),
    decryptFile_failure_cases.2.2.1 [9] (List.range 32) (List.range 12) 12 0
      (by decide) (by decide) (by decide) (by decide),
    decryptFile_failure_cases.2.2.2 (List.range 12) [1, 2, 3] (by decide) (by decide)⟩

/-! ## HTTP layer: hex codec, responses, effect traces, database, handlers -/

/-- Value of a hex digit character; `none` for any other character
(`encoding/hex` accepts `0-9`, `a-f`, `A-F`). -/
def hexDigitVal (c : Char) : Option Nat :=
  if '0' ≤ c ∧ c ≤ '9' then some (c.toNat - 48)
  else if 'a' ≤ c ∧ c ≤ 'f' then some (c.toNat - 87)
  else if 'A' ≤ c ∧ c ≤ 'F' then some (c.toNat - 55)
  else none

/-- `hex.DecodeString` from the Go standard library on the character list:
decode hex digit pairs, failing on any non-hex character or an odd-length
input. -/
def hexDecodeChars : List Char → Except String (List Byte)
  | [] => .ok []
  | [c] =>
    match hexDigitVal c with
    | some _ => .error "encoding/hex: odd length hex string"
    | none => .error "encoding/hex: invalid byte"
  | c1 :: c2 :: rest =>
    match hexDigitVal c1, hexDigitVal c2, hexDecodeChars rest with
    | some h, some l, .ok bs => .ok ((16 * h + l) :: bs)
    | some _, some _, .error e => .error e
    | _, _, _ => .error "encoding/hex: invalid byte"

/-- `hex.DecodeString` applied to the `key` query parameter. -/
def hexDecode (s : String) : Except String (List Byte) :=
  hexDecodeChars s.toList

/-- A lower-case hex digit character. -/
def hexDigit (n : Nat) : Char :=
  if n < 10 then Char.ofNat (48 + n) else Char.ofNat (87 + n)

/-- `hex.EncodeToString` from the Go standard library. -/
def hexEncode (bs : List Byte) : String :=
  String.mk (bs.foldr (fun b acc => hexDigit (b / 16) :: hexDigit (b % 16) :: acc) [])

/-- Body of an HTTP response as the handlers produce it. -/
inductive Body
  | empty
  | bytes (bs : List Byte)
  | jsonError (msg : String)
  | jsonIdKey (id key : String)
  | jsonFileInfo (fileName fileSize : String)
  deriving DecidableEq

/-- An HTTP response: status code, headers and body. -/
structure Response where
  status : Nat
  headers : List (String × String)
  body : Body
  deriving DecidableEq

/-- One observable effect of a handler: a store read, a store write, a
response-header write, a decryption attempt, or a body write. -/
inductive Event
  | dbQuery (id : String)
  | dbInsert (id name : String) (data : List Byte)
  | headerSet (name value : String)
  | decryptAttempt
  | bodyWrite (bs : List Byte)
  deriving DecidableEq

/-- One row of the `files` table (`id TEXT PRIMARY KEY, name TEXT, data
BYTEA`, src/server/main.go:78-87). -/
structure FileRow where
  name : String
  data : List Byte
  deriving DecidableEq

/-- The `files` table, keyed by `id`. -/
abbrev DB := List (String × FileRow)

/-- `storeFileInDB` (src/server/main.go:194-207): a single INSERT wrapped in
a transaction. -/
def storeFileInDB (db : DB) (id fileName : String) (encryptedData : List Byte) : DB :=
  db ++ [(id, ⟨fileName, encryptedData⟩)]

/-- `getFileFromDB` (src/server/main.go:209-215): `SELECT name, data FROM
files WHERE id = $1`, with `sql.ErrNoRows` mapped to "file not found". -/
def getFileFromDB (db : DB) (id : String) : Except String FileRow :=
  match db.lookup id with
  | some row => .ok row
  | none => .error "file not found"

/-- `handleError` (src/server/main.go:217-219): a JSON `{"error": msg}` body
with the given status code. -/
def handleError (msg : String) (code : Nat) : Response :=
  { status := code, headers := [], body := .jsonError msg }

/-- `handleUpload` (src/server/main.go:89-130).  The multipart form
(`FormFile("file")` yielding file name and content, or failing), the random
key, the random nonce and the generated id are explicit arguments.  Returns
the updated database, the response, and the trace of effects. -/
def handleUpload (db : DB) (form : Option (String × List Byte))
    (key nonce : List Byte) (id : String) : DB × Response × List Event :=
  match form with
  | none => (db, handleError "error getting form file: http: no such file" 400, [])
  | some (fileName, fileBytes) =>
    match encryptFile key nonce fileBytes with
    | .error e => (db, handleError ("error encrypting file: " ++ e) 500, [])
    | .ok encryptedData =>
      (storeFileInDB db id fileName encryptedData,
        { status := 200, headers := [], body := .jsonIdKey id (hexEncode key) },
        [.dbInsert id fileName encryptedData])

/-- `decryptAndStreamFile` (src/server/main.go:246-269): the same checks as
`decryptFile` (the Go source duplicates them line for line), then a single
`w.Write(plaintext)`, modelled by returning the bytes to be written. -/
def decryptAndStreamFile (encryptedData key : List Byte) : Except String (List Byte) :=
  if encryptedData.length < nonceSize then .error "ciphertext too short"
  else match aesNewCipher key with
  | .error e => .error e
  | .ok _ =>
    match gcmOpen key (encryptedData.take nonceSize) (encryptedData.drop nonceSize) [] with
    | some pt => .ok pt
    | none => .error "cipher: message authentication failed"

/-- `handleDownload`, step 3 (src/server/main.go:146-153): once the stored
row is found, set `Content-Disposition` from the stored name, then decrypt
and stream (on failure the error response is written after the header was
already set on the response). -/
def downloadFound (id : String) (row : FileRow) (key : List Byte) : Response × List Event :=
  match decryptAndStreamFile row.data key with
  | .error e =>
    ({ status := 500,
       headers := [("Content-Disposition",
         "attachment; filename=\"" ++ row.name ++ "\"")],
       body := .jsonError ("error decrypting and streaming file: " ++ e) },
     [.dbQuery id,
      .headerSet "Content-Disposition" ("attachment; filename=\"" ++ row.name ++ "\""),
      .decryptAttempt])
  | .ok pt =>
    ({ status := 200,
       headers := [("Content-Disposition",
         "attachment; filename=\"" ++ row.name ++ "\"")],
       body := .bytes pt },
     [.dbQuery id,
      .headerSet "Content-Disposition" ("attachment; filename=\"" ++ row.name ++ "\""),
      .decryptAttempt, .bodyWrite pt])

/-- `handleDownload`, step 2 (src/server/main.go:141-144): fetch the row by
id, answering the store error on failure. -/
def downloadWithKey (db : DB) (id : String) (key : List Byte) : Response × List Event :=
  match getFileFromDB db id with
  | .error e =>
    (handleError ("error getting file from database: " ++ e) 500, [.dbQuery id])
  | .ok row => downloadFound id row key

/-- `handleDownload` (src/server/main.go:132-154), decomposed into its
sequential steps: decode the key, fetch the row, stream. -/
def handleDownload (db : DB) (id keyHex : String) : Response × List Event :=
  match hexDecode keyHex with
  | .error e => (handleError ("invalid key: " ++ e) 400, [])
  | .ok key => downloadWithKey db id key

/-- `fmt.Sprintf("%.2f", num/den)` for the exact rational `num / den`.  The
divisors used below are 1024 and 1048576, powers of two, so for every file
size the server accepts the float64 quotient is exact and Go's formatting is
exactly decimal rounding to two places with ties to even, which this
computes over `Nat`. -/
def round2 (num den : Nat) : Nat :=
  if den < 2 * (100 * num % den) then 100 * num / den + 1
  else if 2 * (100 * num % den) < den then 100 * num / den
  else if 100 * num / den % 2 = 1 then 100 * num / den + 1
  else 100 * num / den

/-- Two-digit zero-padded decimal fraction part. -/
def pad2 (n : Nat) : String :=
  if n < 10 then "0" ++ toString n else toString n

/-- `"%.2f"` of `num / den`. -/
def fmt2 (num den : Nat) : String :=
  toString (round2 num den / 100) ++ "." ++ pad2 (round2 num den % 100)

/-- The size string computed by `handleGetFileInfo`
(src/server/main.go:175-181): `"%.2f MB"` of `n / 1048576` when
`n ≥ 1048576` (1 MiB), else `"%.2f KB"` of `n / 1024`. -/
def formatFileSize (fileSizeBytes : Nat) : String :=
  if 1024 * 1024 ≤ fileSizeBytes then fmt2 fileSizeBytes (1024 * 1024) ++ " MB"
  else fmt2 fileSizeBytes 1024 ++ " KB"

/-- `handleGetFileInfo`, step 3 (src/server/main.go:170-191): decrypt the
stored blob and report the name with the formatted plaintext size. -/
def infoFound (id : String) (row : FileRow) (key : List Byte) : Response × List Event :=
  match decryptFile row.data key with
  | .error e =>
    (handleError ("error decrypting file: " ++ e) 500, [.dbQuery id, .decryptAttempt])
  | .ok plaintext =>
    ({ status := 200, headers := [],
       body := .jsonFileInfo row.name (formatFileSize plaintext.length) },
     [.dbQuery id, .decryptAttempt])

/-- `handleGetFileInfo`, step 2 (src/server/main.go:165-168): fetch the row
by id. -/
def infoWithKey (db : DB) (id : String) (key : List Byte) : Response × List Event :=
  match getFileFromDB db id with
  | .error e =>
    (handleError ("error getting file from database: " ++ e) 500, [.dbQuery id])
  | .ok row => infoFound id row key

/-- `handleGetFileInfo` (src/server/main.go:156-192), decomposed into its
sequential steps: decode the key, fetch the row, decrypt and format. -/
def handleGetFileInfo (db : DB) (id keyHex : String) : Response × List Event :=
  match hexDecode keyHex with
  | .error e => (handleError ("invalid key: " ++ e) 400, [])
  | .ok key => infoWithKey db id key

/-- HTTP method of a route. -/
inductive Method
  | GET
  | POST
  deriving DecidableEq

/-- `registerHandlers` (src/server/main.go:33-47): the routes the single-shot
server under src/ registers. -/
def registeredRoutes : List (Method × String) :=
  [(.POST, "/upload"), (.GET, "/download/:id"), (.GET, "/get/:id")]

/-- Replay the store writes of an effect trace against a database; reads and
response effects leave it unchanged. -/
def applyEvent (db : DB) : Event → DB
  | .dbInsert id name data => storeFileInDB db id name data
  | _ => db

/-- Replay a whole effect trace. -/
def applyEvents (db : DB) (events : List Event) : DB :=
  events.foldl applyEvent db

/-- Whether an effect mutates the persistent store. -/
def isDbWrite : Event → Bool
  | .dbInsert _ _ _ => true
  | _ => false

/-! ## Sample data for witnesses -/

/-- A concrete 32-byte key. -/
def sampleKey : List Byte := List.replicate 32 0

/-- The hex encoding of `sampleKey` (64 zero digits). -/
def sampleKeyHex : String :=
  "0000000000000000000000000000000000000000000000000000000000000000"

/-- A concrete hex string decoding to a different 32-byte key. -/
def otherKeyHex : String :=
  "1111111111111111111111111111111111111111111111111111111111111111"

/-- A concrete 12-byte nonce. -/
def sampleNonce : List Byte := List.range 12

/-- A concrete sealed blob for the plaintext `[1, 2, 3]` under `sampleKey`. -/
def sampleBlob : List Byte := sampleNonce ++ gcmSeal sampleKey sampleNonce [1, 2, 3] []

/-! ## Claims about the handlers -/

/-- **C5.** For every successful single-shot upload, the only row written to
the store is `(id, fileName, sealed ciphertext)`: the effect trace holds
exactly one insert, whose payload is the nonce-prefixed sealed blob, and the
raw key bytes appear only hex-encoded in the completion response body, never
as an argument of any store write. -/
theorem handleUpload_key_never_persisted (db : DB) (fileName : String)
    (fileBytes key nonce : List Byte) (id : String) (hk : key.length = 32) :
    handleUpload db (some (fileName, fileBytes)) key nonce id =
      (storeFileInDB db id fileName (nonce ++ gcmSeal key nonce fileBytes []),
        { status := 200, headers := [], body := .jsonIdKey id (hexEncode key) },
        [.dbInsert id fileName (nonce ++ gcmSeal key nonce fileBytes [])]) := by
  unfold handleUpload encryptFile aesNewCipher
  rw [if_pos (by omega)]

/-- Witness for C5 at a concrete upload. -/
theorem handleUpload_key_never_persisted_witness :
    sampleKey.length = 32 ∧
      handleUpload [] (some ("a.txt", [1, 2, 3])) sampleKey sampleNonce "f1" =
        (storeFileInDB [] "f1" "a.txt" (sampleNonce ++ gcmSeal sampleKey sampleNonce [1, 2, 3] []),
          { status := 200, headers := [], body := .jsonIdKey "f1" (hexEncode sampleKey) },
          [.dbInsert "f1" "a.txt" (sampleNonce ++ gcmSeal sampleKey sampleNonce [1, 2, 3] [])]) :=
  ⟨by decide,
    handleUpload_key_never_persisted [] "a.txt" [1, 2, 3] sampleKey sampleNonce "f1" (by decide)⟩

theorem handleDownload_ok_key (db : DB) (id keyHex : String) (key : List Byte)
    (h : hexDecode keyHex = .ok key) :
    handleDownload db id keyHex = downloadWithKey db id key := by
  unfold handleDownload
  rw [h]

theorem handleDownload_bad_key (db : DB) (id keyHex e : String)
    (h : hexDecode keyHex = .error e) :
    handleDownload db id keyHex = (handleError ("invalid key: " ++ e) 400, []) := by
  unfold handleDownload
  rw [h]

theorem downloadWithKey_found (db : DB) (id : String) (key : List Byte) (row : FileRow)
    (h : db.lookup id = some row) :
    downloadWithKey db id key = downloadFound id row key := by
  unfold downloadWithKey getFileFromDB
  rw [h]

theorem downloadWithKey_missing (db : DB) (id : String) (key : List Byte)
    (h : db.lookup id = none) :
    downloadWithKey db id key =
      (handleError "error getting file from database: file not found" 500,
        [.dbQuery id]) := by
  unfold downloadWithKey getFileFromDB
  rw [h]
  rfl

theorem handleGetFileInfo_ok_key (db : DB) (id keyHex : String) (key : List Byte)
    (h : hexDecode keyHex = .ok key) :
    handleGetFileInfo db id keyHex = infoWithKey db id key := by
  unfold handleGetFileInfo
  rw [h]

theorem infoWithKey_found (db : DB) (id : String) (key : List Byte) (row : FileRow)
    (h : db.lookup id = some row) :
    infoWithKey db id key = infoFound id row key := by
  unfold infoWithKey getFileFromDB
  rw [h]

theorem infoWithKey_missing (db : DB) (id : String) (key : List Byte)
    (h : db.lookup id = none) :
    infoWithKey db id key =
      (handleError "error getting file from database: file not found" 500,
        [.dbQuery id]) := by
  unfold infoWithKey getFileFromDB
  rw [h]
  rfl

/-- **C6.** For every id with no stored row and every well-formed hex key,
`handleDownload` answers with the not-found error produced by the store
lookup, and no decryption is attempted — the error is never a decryption
error. -/
theorem handleDownload_nonexistent_id (db : DB) (id keyHex : String) (key : List Byte)
    (hkey : hexDecode keyHex = .ok key) (hmiss : db.lookup id = none) :
    handleDownload db id keyHex =
      (handleError "error getting file from database: file not found" 500, [.dbQuery id]) ∧
    Event.decryptAttempt ∉ (handleDownload db id keyHex).2 := by
  have h : handleDownload db id keyHex =
      (handleError "error getting file from database: file not found" 500, [.dbQuery id]) := by
    rw [handleDownload_ok_key db id keyHex key hkey, downloadWithKey_missing db id key hmiss]
  exact ⟨h, by rw [h]; simp⟩

/-- Witness for C6 on an empty store. -/
theorem handleDownload_nonexistent_id_witness :
    handleDownload [] "nope" sampleKeyHex =
      (handleError "error getting file from database: file not found" 500,
        [.dbQuery "nope"]) ∧
    Event.decryptAttempt ∉ (handleDownload [] "nope" sampleKeyHex).2 :=
  handleDownload_nonexistent_id [] "nope" sampleKeyHex sampleKey rfl rfl

/-- **C8.** For every `key` query parameter that is not valid hex, both
`handleDownload` and `handleGetFileInfo` answer 400 with an error message,
performing no store read and no decryption (the empty effect trace), and the
response is the same whatever the store holds. -/
theorem invalid_hex_key_bad_request (id keyHex e : String)
    (hbad : hexDecode keyHex = .error e) :
    ∀ db : DB,
      handleDownload db id keyHex = (handleError ("invalid key: " ++ e) 400, []) ∧
      handleGetFileInfo db id keyHex = (handleError ("invalid key: " ++ e) 400, []) := by
  intro db
  constructor
  · unfold handleDownload
    rw [hbad]
  · unfold handleGetFileInfo
    rw [hbad]

/-- Witness for C8 at a malformed hex key. -/
theorem invalid_hex_key_bad_request_witness :
    handleDownload [("f1", ⟨"a.txt", sampleBlob⟩)] "f1" "zz" =
      (handleError ("invalid key: " ++ "encoding/hex: invalid byte") 400, []) ∧
    handleGetFileInfo [("f1", ⟨"a.txt", sampleBlob⟩)] "f1" "zz" =
      (handleError ("invalid key: " ++ "encoding/hex: invalid byte") 400, []) :=
  invalid_hex_key_bad_request "f1" "zz" "encoding/hex: invalid byte" rfl
    [("f1", ⟨"a.txt", sampleBlob⟩)]

theorem applyEvents_no_write (events : List Event) :
    ∀ db : DB, (events.all fun e => !isDbWrite e) = true → applyEvents db events = db := by
  induction events with
  | nil => intro db _; rfl
  | cons e es ih =>
    intro db h
    simp only [List.all_cons, Bool.and_eq_true] at h
    have hstep : applyEvent db e = db := by
      cases e <;> simp_all [applyEvent, isDbWrite]
    show applyEvents (applyEvent db e) es = db
    rw [hstep]
    exact ih db h.2

theorem handleDownload_all_no_write (db : DB) (id keyHex : String) :
    ((handleDownload db id keyHex).2.all fun e => !isDbWrite e) = true := by
  cases hh : hexDecode keyHex with
  | error e => rw [handleDownload_bad_key db id keyHex e hh]; rfl
  | ok key =>
    rw [handleDownload_ok_key db id keyHex key hh]
    cases hg : db.lookup id with
    | none => rw [downloadWithKey_missing db id key hg]; rfl
    | some row =>
      rw [downloadWithKey_found db id key row hg]
      unfold downloadFound
      cases decryptAndStreamFile row.data key <;> rfl

theorem handleGetFileInfo_bad_key (db : DB) (id keyHex e : String)
    (h : hexDecode keyHex = .error e) :
    handleGetFileInfo db id keyHex = (handleError ("invalid key: " ++ e) 400, []) := by
  unfold handleGetFileInfo
  rw [h]

theorem handleGetFileInfo_all_no_write (db : DB) (id keyHex : String) :
    ((handleGetFileInfo db id keyHex).2.all fun e => !isDbWrite e) = true := by
  cases hh : hexDecode keyHex with
  | error e => rw [handleGetFileInfo_bad_key db id keyHex e hh]; rfl
  | ok key =>
    rw [handleGetFileInfo_ok_key db id keyHex key hh]
    cases hg : db.lookup id with
    | none => rw [infoWithKey_missing db id key hg]; rfl
    | some row =>
      rw [infoWithKey_found db id key row hg]
      unfold infoFound
      cases decryptFile row.data key <;> rfl

/-- **C9.** Download and file-info never mutate persisted state: for every
request, the effect trace of `handleDownload` and of `handleGetFileInfo`
contains no store write, so replaying it leaves the `files` table identical —
in particular the metadata (name, size) computed by file-info is not
persisted anywhere. -/
theorem download_and_info_readonly (db : DB) (id keyHex : String) :
    applyEvents db (handleDownload db id keyHex).2 = db ∧
    applyEvents db (handleGetFileInfo db id keyHex).2 = db ∧
    ((handleDownload db id keyHex).2.all fun e => !isDbWrite e) = true ∧
    ((handleGetFileInfo db id keyHex).2.all fun e => !isDbWrite e) = true :=
  ⟨applyEvents_no_write _ db (handleDownload_all_no_write db id keyHex),
    applyEvents_no_write _ db (handleGetFileInfo_all_no_write db id keyHex),
    handleDownload_all_no_write db id keyHex,
    handleGetFileInfo_all_no_write db id keyHex⟩

/-- **C10.** For every stored file id and every well-formed hex key —
including any wrong key — `handleDownload` sets the `Content-Disposition`
header containing the stored file name before attempting decryption (the
header-set event is the second trace entry, before the decryption attempt,
and the header ends up in the response in every branch), so the stored file
name is observable by any caller who knows only the id, without possessing
the correct key. -/
theorem handleDownload_discloses_name (db : DB) (id keyHex : String)
    (key : List Byte) (row : FileRow) (hkey : hexDecode keyHex = .ok key)
    (hrow : db.lookup id = some row) :
    ("Content-Disposition", "attachment; filename=\"" ++ row.name ++ "\"") ∈
      (handleDownload db id keyHex).1.headers ∧
    (handleDownload db id keyHex).2.take 2 =
      [.dbQuery id, .headerSet "Content-Disposition"
        ("attachment; filename=\"" ++ row.name ++ "\"")] := by
  rw [handleDownload_ok_key db id keyHex key hkey, downloadWithKey_found db id key row hrow]
  unfold downloadFound
  cases decryptAndStreamFile row.data key with
  | error e => exact ⟨by simp, rfl⟩
  | ok pt => exact ⟨by simp, rfl⟩

/-- Witness for C10: the stored name is disclosed under a wrong key. -/
theorem handleDownload_discloses_name_witness :
    ("Content-Disposition", "attachment; filename=\"" ++ "a.txt" ++ "\"") ∈
      (handleDownload [("f1", ⟨"a.txt", sampleBlob⟩)] "f1" otherKeyHex).1.headers ∧
    (handleDownload [("f1", ⟨"a.txt", sampleBlob⟩)] "f1" otherKeyHex).2.take 2 =
      [.dbQuery "f1", .headerSet "Content-Disposition"
        ("attachment; filename=\"" ++ "a.txt" ++ "\"")] :=
  handleDownload_discloses_name [("f1", ⟨"a.txt", sampleBlob⟩)] "f1" otherKeyHex
    (List.replicate 32 17) ⟨"a.txt", sampleBlob⟩ rfl rfl

/-- **C7.** For every stored file whose plaintext decrypts to `n` bytes, the
file-info operation reports the size as `"%.2f MB"` of `n / 1048576` when
`n ≥ 1048576` and as `"%.2f KB"` of `n / 1024` otherwise; in particular a
500-byte plaintext reports `"0.49 KB"` and a 2,097,152-byte plaintext
reports `"2.00 MB"`. -/
theorem handleGetFileInfo_size_format :
    (∀ (db : DB) (id keyHex : String) (row : FileRow) (key pt : List Byte),
      hexDecode keyHex = .ok key → db.lookup id = some row →
      decryptFile row.data key = .ok pt →
      (handleGetFileInfo db id keyHex).1 =
        { status := 200, headers := [],
          body := .jsonFileInfo row.name (formatFileSize pt.length) }) ∧
    (∀ n : Nat, 1024 * 1024 ≤ n → formatFileSize n = fmt2 n (1024 * 1024) ++ " MB") ∧
    (∀ n : Nat, n < 1024 * 1024 → formatFileSize n = fmt2 n 1024 ++ " KB") ∧
    formatFileSize 500 = "0.49 KB" ∧ formatFileSize 2097152 = "2.00 MB" := by
  refine ⟨?_, ?_, ?_, by decide, by decide⟩
  · intro db id keyHex row key pt hkey hrow hdec
    rw [handleGetFileInfo_ok_key db id keyHex key hkey,
      infoWithKey_found db id key row hrow]
    unfold infoFound
    rw [hdec]
  · intro n h
    unfold formatFileSize
    rw [if_pos h]
  · intro n h
    unfold formatFileSize
    rw [if_neg (by omega)]

set_option maxRecDepth 16000 in
/-- Witness for C7 at a concrete stored file and at the branch bounds. -/
theorem handleGetFileInfo_size_format_witness :
    (handleGetFileInfo [("f1", ⟨"a.txt", sampleBlob⟩)] "f1" sampleKeyHex).1 =
      { status := 200, headers := [],
        body := .jsonFileInfo "a.txt" (formatFileSize ([(1 : Nat), 2, 3]).length) } ∧
    formatFileSize 1048576 = fmt2 1048576 (1024 * 1024) ++ " MB" ∧
    formatFileSize 500 = fmt2 500 1024 ++ " KB" :=
  ⟨handleGetFileInfo_size_format.1 [("f1", ⟨"a.txt", sampleBlob⟩)] "f1" sampleKeyHex
      ⟨"a.txt", sampleBlob⟩ sampleKey [1, 2, 3] rfl rfl rfl,
    handleGetFileInfo_size_format.2.1 1048576 (by decide),
    handleGetFileInfo_size_format.2.2.1 500 (by decide)⟩

/-! ## The chunked-upload variant (modelled from the spec)

The client under src/ (src/client/assets/index.js) uploads through
`POST /upload_chunk` and `POST /upload_complete`, but the server variant
implementing those endpoints is not under src/ — only this caller is.  The
definitions below are therefore modelled from the spec (§3, §4.2, §4.4, §6)
rather than translated from Go source. -/

/-- Modelled from the spec: the route table of the chunked-upload server
variant (spec §6), whose Go source is missing from src/. -/
def chunkedVariantRoutes : List (Method × String) :=
  [(.POST, "/upload"), (.POST, "/upload_chunk"), (.POST, "/upload_complete"),
   (.GET, "/download/:id"), (.GET, "/get/:id")]

/-- Modelled from the spec: the staging store of the chunked variant — raw
chunk bytes keyed by `(uploadId, chunkIndex)` (spec §3, §4.2). -/
abbrev ChunkStore := List ((String × Nat) × List Byte)

/-- Modelled from the spec: the `POST /upload_chunk` handler of the chunked
variant — accept the multipart fields `chunk`, `uploadId` and `chunkIndex`,
stage the chunk under `(uploadId, chunkIndex)`, and answer 200 with an empty
body (spec §4.4 `receiveChunk`, §6). -/
def handleUploadChunk (staged : ChunkStore) (uploadId : String) (chunkIndex : Nat)
    (chunk : List Byte) : ChunkStore × Response :=
  (((uploadId, chunkIndex), chunk) :: staged,
    { status := 200, headers := [], body := .empty })

/-- Modelled from the spec: Chunk Store `get` (spec §4.2). -/
def chunkGet (staged : ChunkStore) (uploadId : String) (i : Nat) : Option (List Byte) :=
  staged.lookup (uploadId, i)

/-- Modelled from the spec: the completion loop of `POST /upload_complete`
(spec §4.4) — read the staged chunks starting at index `i` (`count` of them)
in strict ascending order, failing if one is missing, and encrypt each under
the fresh key with a fresh nonce per chunk. -/
def completeChunks (staged : ChunkStore) (uploadId : String) (key : List Byte)
    (nonces : Nat → List Byte) (i : Nat) : Nat → Except String (List (List Byte))
  | 0 => .ok []
  | count + 1 =>
    match chunkGet staged uploadId i with
    | none => .error "chunk missing"
    | some chunk =>
      match encryptFile key (nonces i) chunk with
      | .error e => .error e
      | .ok enc =>
        match completeChunks staged uploadId key nonces (i + 1) count with
        | .error e => .error e
        | .ok rest => .ok (enc :: rest)

/-- Modelled from the spec: one row of the chunked variant's file table
(spec §3 FileRecord). -/
structure FileChunkRow where
  id : String
  chunkIndex : Nat
  name : String
  cipher : List Byte

/-- Modelled from the spec: the `POST /upload_complete` handler — with the
fields `uploadId`, `chunkCount` and `fileName`, and the freshly generated key,
nonces and file id as explicit arguments, read and encrypt the staged chunks
in order, append them to the file store, and answer `{id, key}` JSON with the
key hex-encoded (spec §4.4, §6). -/
def handleUploadComplete (staged : ChunkStore) (uploadId : String) (chunkCount : Nat)
    (fileName : String) (key : List Byte) (nonces : Nat → List Byte) (id : String) :
    List FileChunkRow × Response :=
  match completeChunks staged uploadId key nonces 0 chunkCount with
  | .error e => ([], handleError ("error completing upload: " ++ e) 500)
  | .ok encs =>
    (encs.enum.map fun p => ⟨id, p.1, fileName, p.2⟩,
      { status := 200, headers := [], body := .jsonIdKey id (hexEncode key) })

theorem completeChunks_ok (staged : ChunkStore) (uploadId : String) (key : List Byte)
    (nonces : Nat → List Byte) (hk : key.length = 32) :
    ∀ count i : Nat, (∀ j, i ≤ j → j < i + count → (chunkGet staged uploadId j).isSome) →
      ∃ encs, completeChunks staged uploadId key nonces i count = .ok encs := by
  intro count
  induction count with
  | zero => exact fun i _ => ⟨[], rfl⟩
  | succ n ih =>
    intro i h
    have h0 := h i (Nat.le_refl i) (by omega)
    cases hg : chunkGet staged uploadId i with
    | none => rw [hg] at h0; simp at h0
    | some chunk =>
      have henc : encryptFile key (nonces i) chunk =
          .ok (nonces i ++ gcmSeal key (nonces i) chunk []) := by
        unfold encryptFile aesNewCipher
        rw [if_pos (by omega)]
      obtain ⟨encs, hrec⟩ := ih (i + 1) (fun j h1 h2 => h j (by omega) (by omega))
      refine ⟨(nonces i ++ gcmSeal key (nonces i) chunk []) :: encs, ?_⟩
      unfold completeChunks
      simp only [hg, henc, hrec]

/-- **C4.** The chunked-upload variant exposes `POST /upload_chunk`, which
accepts the multipart fields `chunk`, `uploadId` and `chunkIndex` and always
answers 200 with an empty body on success, and `POST /upload_complete`,
which accepts `uploadId`, `chunkCount` and `fileName` and answers `{id, key}`
JSON whenever all staged chunks are present and the generated key is the
32-byte key the variant draws.  Modelled from the spec (§4.4, §6): the
variant's server source is not under src/ (only its client caller is). -/
theorem chunked_endpoints_contract :
    (Method.POST, "/upload_chunk") ∈ chunkedVariantRoutes ∧
    (Method.POST, "/upload_complete") ∈ chunkedVariantRoutes ∧
    (∀ (staged : ChunkStore) (uploadId : String) (chunkIndex : Nat) (chunk : List Byte),
      (handleUploadChunk staged uploadId chunkIndex chunk).2 =
        { status := 200, headers := [], body := .empty }) ∧
    (∀ (staged : ChunkStore) (uploadId fileName : String) (chunkCount : Nat)
      (key : List Byte) (nonces : Nat → List Byte) (id : String),
      key.length = 32 →
      (∀ i, i < chunkCount → (chunkGet staged uploadId i).isSome) →
      (handleUploadComplete staged uploadId chunkCount fileName key nonces id).2 =
        { status := 200, headers := [], body := .jsonIdKey id (hexEncode key) }) := by
  refine ⟨by decide, by decide, fun _ _ _ _ => rfl, ?_⟩
  intro staged uploadId fileName chunkCount key nonces id hk hall
  obtain ⟨encs, hok⟩ := completeChunks_ok staged uploadId key nonces hk chunkCount 0
    (fun j _ h2 => hall j (by omega))
  unfold handleUploadComplete
  rw [hok]

/-- Witness for C4: a two-chunk upload completed at concrete inputs. -/
theorem chunked_endpoints_contract_witness :
    (handleUploadComplete [(("u1", 0), [5]), (("u1", 1), [6])] "u1" 2 "b.bin"
        sampleKey (fun _ => sampleNonce) "f9").2 =
      { status := 200, headers := [], body := .jsonIdKey "f9" (hexEncode sampleKey) } ∧
    (handleUploadChunk [] "u1" 0 [5]).2 = { status := 200, headers := [], body := .empty } :=
  ⟨chunked_endpoints_contract.2.2.2 [(("u1", 0), [5]), (("u1", 1), [6])] "u1" "b.bin" 2
      sampleKey (fun _ => sampleNonce) "f9" (by decide) (by decide),
    chunked_endpoints_contract.2.2.1 [] "u1" 0 [5]⟩

end FileShare
